import Mathlib

/-!
Shallow embedding of the permission-scoped attendance/grade record engine
(services `attendanceService`, `gradeService`, `authService`, the
attendance-page authorization guards, and the Excel batch import of
`gradeService`).  Firestore documents are modelled as association lists
keyed by document id; `Timestamp.now()` is an explicit `Nat` parameter;
JS numbers are modelled as exact rationals `ℚ`.
-/

namespace SS007

/-- Role labels, `UserRole` / `StudentPermission.role` in `types/index.ts`. -/
inductive Role where
  | student
  | group_leader
  | teacher
deriving Repr, DecidableEq

/-- `Student` from `types/index.ts`: roster entry keyed by `account` (MSSV). -/
structure Student where
  account : String
  name : String
  surname : String
  group : String
deriving Repr, DecidableEq

/-- `StudentPermission` from `types/index.ts` (timestamps omitted: the
authorization guards never read them). -/
structure StudentPermission where
  studentAccount : String
  canMarkAttendance : Bool
  canEditGrades : Bool
  isGroupLeader : Bool
  role : Role
deriving Repr, DecidableEq

/-- `getParticipationScore` from the attendance page: step function from a
participation count to a participation score.  Counts are JS numbers; the
integer behaviour is what the page exercises. -/
def getParticipationScore (count : Int) : Int :=
  if count ≤ 0 then 0
  else if count = 1 then 3
  else if count = 2 then 6
  else if count = 3 then 9
  else if count ≥ 4 then 10
  else 0

/-- `GradeType` from `types/index.ts`: the seven grade categories.  Note that
`total` is not a `GradeType`, so the single-category upsert cannot write it. -/
inductive GradeType where
  | midterm
  | final
  | assignment1
  | assignment2
  | assignment3
  | project
  | participation
deriving Repr, DecidableEq

/-- The category weights of `GradeService.calculateTotal`. -/
def weight : GradeType → ℚ
  | .midterm => 3/10
  | .final => 4/10
  | .assignment1 => 1/10
  | .assignment2 => 1/10
  | .assignment3 => 5/100
  | .project => 15/100
  | .participation => 5/100

/-- The iteration order of `Object.entries(weights)` in `calculateTotal`. -/
def gradeTypes : List GradeType :=
  [.midterm, .final, .assignment1, .assignment2, .assignment3, .project,
   .participation]

/-- `GradeRecord` from `types/index.ts`: one Firestore document of the
`grades` collection.  Optional numeric fields are `Option ℚ`;
`updatedAt` is a `Nat` timestamp. -/
structure GradeRecord where
  studentAccount : String
  midterm : Option ℚ := none
  final : Option ℚ := none
  assignment1 : Option ℚ := none
  assignment2 : Option ℚ := none
  assignment3 : Option ℚ := none
  project : Option ℚ := none
  participation : Option ℚ := none
  total : Option ℚ := none
  updatedAt : Nat := 0
  updatedBy : String := ""
deriving Repr, DecidableEq

/-- Field read `gradeRecord[key]` for a category key. -/
def getCategory (r : GradeRecord) : GradeType → Option ℚ
  | .midterm => r.midterm
  | .final => r.final
  | .assignment1 => r.assignment1
  | .assignment2 => r.assignment2
  | .assignment3 => r.assignment3
  | .project => r.project
  | .participation => r.participation

/-- Field write `{ [gradeType]: value }` for a category key. -/
def setCategory (r : GradeRecord) (t : GradeType) (v : ℚ) : GradeRecord :=
  match t with
  | .midterm => { r with midterm := some v }
  | .final => { r with final := some v }
  | .assignment1 => { r with assignment1 := some v }
  | .assignment2 => { r with assignment2 := some v }
  | .assignment3 => { r with assignment3 := some v }
  | .project => { r with project := some v }
  | .participation => { r with participation := some v }

/-- `Number(x.toFixed(2))`: round to two decimal places. -/
def roundTo2 (q : ℚ) : ℚ := (round (q * 100) : ℤ) / 100

/-- `GradeService.calculateTotal`: accumulate `value * weight` and the weight
itself over the categories present, then divide and round; `0` when no
category is present. -/
def calculateTotal (r : GradeRecord) : ℚ :=
  let acc := gradeTypes.foldl
    (fun (acc : ℚ × ℚ) t =>
      match getCategory r t with
      | some g => (acc.1 + g * weight t, acc.2 + weight t)
      | none => acc)
    (0, 0)
  if acc.2 > 0 then roundTo2 (acc.1 / acc.2) else 0

/-- Spec-side reformulation of the weighted total: the list of
`(value, weight)` pairs of the categories present. -/
def presentPairs (r : GradeRecord) : List (ℚ × ℚ) :=
  gradeTypes.filterMap (fun t => (getCategory r t).map (fun v => (v, weight t)))

/-- Spec-side weighted total: sum of `value*weight` over categories present,
divided by the sum of the weights present, rounded to 2 decimals; `0` when no
category is present. -/
def specWeightedTotal (r : GradeRecord) : ℚ :=
  let pairs := presentPairs r
  let w := (pairs.map Prod.snd).sum
  if w > 0 then roundTo2 ((pairs.map (fun p => p.1 * p.2)).sum / w) else 0

/-- The slice of `AuthUser` the attendance-page guards read: `uid`,
`studentAccount` (the MSSV for roster logins), and the role label. -/
structure AuthUser where
  uid : String
  email : String
  displayName : String
  role : Role
  studentAccount : Option String
deriving Repr, DecidableEq

/-- `canInteractWithStudent` from the attendance page: no user or no
`canMarkAttendance` → `false`; teachers → `true`; group leaders → group
equality after resolving both accounts in the loaded roster (falling through
to `false` when either lookup misses); everyone else → `false`. -/
def canInteractWithStudent (students : List Student) (user : Option AuthUser)
    (userPermission : Option StudentPermission)
    (targetStudentAccount : String) : Bool :=
  match user, userPermission with
  | none, _ => false
  | some _, none => false
  | some u, some perm =>
    if !perm.canMarkAttendance then false
    else if perm.role = .teacher then true
    else if perm.role = .group_leader then
      match u.studentAccount with
      | some acc =>
        match students.find? (fun s => s.account == acc),
              students.find? (fun s => s.account == targetStudentAccount) with
        | some cur, some tgt => cur.group == tgt.group
        | _, _ => false
      | none => false
    else false

/-- Outcome of the guard prefacing the optimistic write in
`handleAttendanceChange` / `handleParticipationChange`. -/
inductive GuardDecision where
  | denyNotLoggedIn
  | denyNoPermission
  | denyWrongGroup (ownGroup : String)
  | allow
deriving Repr, DecidableEq

/-- The authorization guard of `handleAttendanceChange` (the code before the
`markAttendance` call): not logged in → deny; `userPermission` absent or
`canMarkAttendance` false → deny; a group leader whose own and target roster
entries both resolve and have different groups → deny; otherwise the write
proceeds. -/
def handleAttendanceChangeGuard (students : List Student)
    (user : Option AuthUser) (userPermission : Option StudentPermission)
    (studentAccount : String) : GuardDecision :=
  match user with
  | none => .denyNotLoggedIn
  | some u =>
    match userPermission with
    | none => .denyNoPermission
    | some perm =>
      if !perm.canMarkAttendance then .denyNoPermission
      else if perm.role = .group_leader then
        match u.studentAccount with
        | some acc =>
          match students.find? (fun s => s.account == acc),
                students.find? (fun s => s.account == studentAccount) with
          | some cur, some tgt =>
            if cur.group ≠ tgt.group then .denyWrongGroup cur.group else .allow
          | _, _ => .allow
        | none => .allow
      else .allow

/-- The authorization guard of `handleParticipationChange`; its code is
identical to the `handleAttendanceChange` guard. -/
def handleParticipationChangeGuard (students : List Student)
    (user : Option AuthUser) (userPermission : Option StudentPermission)
    (studentAccount : String) : GuardDecision :=
  handleAttendanceChangeGuard students user userPermission studentAccount

/-- Roster document data read by `AuthService.signInWithAccount` from the
`students` collection. -/
structure StudentDoc where
  name : String
  surname : String
deriving Repr, DecidableEq

/-- Firestore `getDoc(doc(db, 'students', account))`: key-based roster
lookup. -/
def lookupStudentDoc (roster : List (String × StudentDoc)) (account : String) :
    Option StudentDoc :=
  (roster.find? (fun e => e.1 == account)).map Prod.snd

/-- `AuthService.signInWithAccount` (the path where the roster read itself
succeeds; the `catch` clause for backing-store failures is not modelled).
Whether or not the account exists in the roster, the function returns a
subject with `role = student` and `studentAccount = account`; an unknown
account gets the demo fallback display name.  There is no configuration
parameter: no mode rejects unknown accounts. -/
def signInWithAccount (roster : List (String × StudentDoc))
    (account : String) : AuthUser :=
  match lookupStudentDoc roster account with
  | none =>
    { uid := account
      email := account ++ "@gm.uit.edu.vn"
      displayName := "Sinh viên " ++ account
      role := .student
      studentAccount := some account }
  | some sd =>
    { uid := account
      email := account ++ "@gm.uit.edu.vn"
      displayName := sd.name ++ " " ++ sd.surname
      role := .student
      studentAccount := some account }

/-- `AttendanceRecord` plus the extra fields `attendanceService` writes
(`participationCount`, `updatedBy`): one Firestore document of the
`attendance` collection. -/
structure AttendanceDoc where
  studentAccount : String
  date : String
  isPresent : Bool
  participationCount : Nat := 0
  createdAt : Nat := 0
  updatedAt : Nat := 0
  updatedBy : String := ""
deriving Repr, DecidableEq

/-- The `attendance` collection: documents keyed by their Firestore id. -/
abbrev AttStore := List (String × AttendanceDoc)

/-- The document id `` `${studentAccount}_${dateString}` `` used by
`markAttendance` / `updateParticipation` / `deleteAttendance`. -/
def attDocId (studentAccount dateString : String) : String :=
  studentAccount ++ "_" ++ dateString

/-- The in-memory comparator of `getAttendanceRecords`: date descending,
then `studentAccount` ascending. -/
def attRecLE (a b : AttendanceDoc) : Bool :=
  if a.date ≠ b.date then decide (b.date < a.date)
  else decide (a.studentAccount ≤ b.studentAccount)

/-- The `where`-clause filter of `getAttendanceRecords` for the
`{date, studentAccount}` filter it is called with from `markAttendance`:
both equality clauses applied. -/
def attFilterPred (dateString studentAccount : String)
    (e : String × AttendanceDoc) : Bool :=
  e.2.date == dateString && e.2.studentAccount == studentAccount

/-- `getAttendanceRecords({date, studentAccount})` on a successful fetch:
filter by both fields, then the in-memory sort. -/
def getAttendanceRecordsBy (store : AttStore)
    (dateString studentAccount : String) : List AttendanceDoc :=
  ((store.filter (attFilterPred dateString studentAccount)).map Prod.snd).mergeSort attRecLE

/-- `markAttendance(studentAccount, date, isPresent, markedBy)`: look up the
existing records for `(studentAccount, date)`; if any exist, `updateDoc` the
document keyed `attDocId` with the attendance fields (leaving
`participationCount` and `createdAt` untouched); else `setDoc` a fresh
document with `createdAt = now` and `participationCount = 0`. -/
def markAttendance (store : AttStore) (studentAccount dateString : String)
    (isPresent : Bool) (markedBy : String) (now : Nat) : AttStore :=
  let docId := attDocId studentAccount dateString
  let existingRecords := getAttendanceRecordsBy store dateString studentAccount
  if existingRecords.length > 0 then
    store.map (fun e =>
      if e.1 == docId then
        (e.1, { e.2 with
                  studentAccount := studentAccount
                  date := dateString
                  isPresent := isPresent
                  updatedAt := now
                  updatedBy := markedBy })
      else e)
  else
    store ++ [(docId,
      { studentAccount := studentAccount
        date := dateString
        isPresent := isPresent
        participationCount := 0
        createdAt := now
        updatedAt := now
        updatedBy := markedBy })]

/-- Number of stored attendance documents whose fields match
`(studentAccount, date)` — the records `getAttendanceRecords` would return
for that composite key. -/
def countFor (store : AttStore) (dateString studentAccount : String) : Nat :=
  (store.filter (attFilterPred dateString studentAccount)).length

/-- Store well-formedness for one composite key: document ids are unique,
and a document carries the fields `(studentAccount, date)` exactly when its
id is `attDocId studentAccount date` (Firestore guarantees this because the
id is always derived from those two fields at write time). -/
def KeyedFor (store : AttStore) (studentAccount dateString : String) : Prop :=
  (store.map Prod.fst).Nodup ∧
  ∀ e ∈ store,
    ((e.2.studentAccount = studentAccount ∧ e.2.date = dateString) ↔
      e.1 = attDocId studentAccount dateString)

/-- The `grades` collection: documents keyed by their Firestore id
(`docId = studentAccount` for every write the service performs). -/
abbrev GradeStore := List (String × GradeRecord)

/-- `getGradesByStudent`: query `where('studentAccount', '==', acc)` and
return the first matching document, `none` when there is no match. -/
def getGradesByStudent (store : GradeStore) (studentAccount : String) :
    Option GradeRecord :=
  ((store.filter (fun e => e.2.studentAccount == studentAccount)).map Prod.snd).head?

/-- Firestore `setDoc`: replace the document at the key if present, else
create it. -/
def setDocGrade (store : GradeStore) (docId : String) (r : GradeRecord) :
    GradeStore :=
  if store.any (fun e => e.1 == docId) then
    store.map (fun e => if e.1 == docId then (e.1, r) else e)
  else
    store ++ [(docId, r)]

/-- `recalculateTotal(studentAccount)`: re-fetch the record, compute
`calculateTotal` on it, and `updateDoc` only `total` and `updatedAt` on the
document keyed by the account; a missing record is a no-op. -/
def recalculateTotal (store : GradeStore) (studentAccount : String)
    (now : Nat) : GradeStore :=
  match getGradesByStudent store studentAccount with
  | none => store
  | some gradeRecord =>
    let newTotal := calculateTotal gradeRecord
    store.map (fun e =>
      if e.1 == studentAccount then
        (e.1, { e.2 with total := some newTotal, updatedAt := now })
      else e)

/-- `updateGrade(studentAccount, gradeType, value, updatedBy)`: merge-write
the one category plus `studentAccount`, `updatedAt`, `updatedBy` into the
document keyed by the account (`updateDoc` when a record matching the
account exists, `setDoc` of a fresh document otherwise), then
`recalculateTotal`. -/
def updateGrade (store : GradeStore) (studentAccount : String)
    (gradeType : GradeType) (value : ℚ) (updatedBy : String) (now : Nat) :
    GradeStore :=
  let docId := studentAccount
  let store1 :=
    match getGradesByStudent store studentAccount with
    | some _ =>
      store.map (fun e =>
        if e.1 == docId then
          (e.1, setCategory
            { e.2 with
                studentAccount := studentAccount
                updatedAt := now
                updatedBy := updatedBy }
            gradeType value)
        else e)
    | none =>
      setDocGrade store docId
        (setCategory
          { studentAccount := studentAccount
            updatedAt := now
            updatedBy := updatedBy }
          gradeType value)
  recalculateTotal store1 studentAccount now

/-- `batchUpdateGrades`: one `updateGrade` per row.  The source issues the
writes with `Promise.all`; the writes touch distinct or identical keys
through the same store, modelled here as sequential application in row
order. -/
def batchUpdateGrades (store : GradeStore)
    (grades : List (String × GradeType × ℚ)) (updatedBy : String)
    (now : Nat) : GradeStore :=
  grades.foldl
    (fun st g => updateGrade st g.1 g.2.1 g.2.2 updatedBy now) store

/-- The resolved cell value `row[gradeType] || row.grade || row.score` of an
Excel row: absent (`undefined`/`null`), the empty string, a non-numeric
string (`parseFloat` gives `NaN`), or a number. -/
inductive Cell where
  | missing
  | empty
  | nanVal
  | num (q : ℚ)
deriving Repr, DecidableEq

/-- One Excel row as `processExcelUpload` reads it: the resolved account
alias `row.account || row.MSSV || row.studentAccount` (`none` when all three
are falsy) and the resolved grade cell. -/
structure ExcelRow where
  account : Option String
  value : Cell
deriving Repr, DecidableEq

/-- `ExcelValidationError` from `types/index.ts`. -/
structure ExcelValidationError where
  row : Nat
  account : String
  field : String
  error : String
deriving Repr, DecidableEq

/-- `ExcelUploadResult` from `types/index.ts`. -/
structure ExcelUploadResult where
  success : Bool
  message : String
  errors : List ExcelValidationError
  processedCount : Nat
  totalCount : Nat
deriving Repr, DecidableEq

/-- The display name of a grade category (the `field` of a value error). -/
def gradeTypeName : GradeType → String
  | .midterm => "midterm"
  | .final => "final"
  | .assignment1 => "assignment1"
  | .assignment2 => "assignment2"
  | .assignment3 => "assignment3"
  | .project => "project"
  | .participation => "participation"

/-- Validation of one row, as in the loop body of `processExcelUpload`:
missing account alias → account error; missing/empty cell → value error;
`NaN` or out of `[0,10]` → range error; otherwise the valid
`(account, value)` pair. -/
def validateExcelRow (row : ExcelRow) (gradeType : GradeType)
    (rowNumber : Nat) : ExcelValidationError ⊕ (String × ℚ) :=
  match row.account with
  | none =>
    .inl { row := rowNumber, account := "N/A", field := "account",
           error := "Thiếu MSSV/Account" }
  | some studentAccount =>
    match row.value with
    | .missing =>
      .inl { row := rowNumber, account := studentAccount,
             field := gradeTypeName gradeType, error := "Thiếu điểm" }
    | .empty =>
      .inl { row := rowNumber, account := studentAccount,
             field := gradeTypeName gradeType, error := "Thiếu điểm" }
    | .nanVal =>
      .inl { row := rowNumber, account := studentAccount,
             field := gradeTypeName gradeType,
             error := "Điểm không hợp lệ (0-10)" }
    | .num q =>
      if q < 0 ∨ q > 10 then
        .inl { row := rowNumber, account := studentAccount,
               field := gradeTypeName gradeType,
               error := "Điểm không hợp lệ (0-10)" }
      else .inr (studentAccount, q)

/-- The validation loop of `processExcelUpload`: walk the rows with their
1-based-after-header row numbers (`rowNumber = i + 2`), accumulating the
error list and the valid grades in order. -/
def validateExcelRows (rows : List ExcelRow) (gradeType : GradeType)
    (firstRowNumber : Nat) :
    List ExcelValidationError × List (String × ℚ) :=
  match rows with
  | [] => ([], [])
  | row :: rest =>
    let tail := validateExcelRows rest gradeType (firstRowNumber + 1)
    match validateExcelRow row gradeType firstRowNumber with
    | .inl err => (err :: tail.1, tail.2)
    | .inr ok => (tail.1, ok :: tail.2)

/-- `processExcelUpload(excelData, gradeType, updatedBy)`: validate every
row; when the error list is empty run `batchUpdateGrades` on the valid rows,
otherwise write nothing; report `success = (no errors)`,
`processedCount = validGrades.length`, `totalCount = excelData.length`. -/
def processExcelUpload (store : GradeStore) (excelData : List ExcelRow)
    (gradeType : GradeType) (updatedBy : String) (now : Nat) :
    ExcelUploadResult × GradeStore :=
  let v := validateExcelRows excelData gradeType 2
  let errors := v.1
  let validGrades := v.2.map (fun g => (g.1, gradeType, g.2))
  let store1 :=
    if errors.length = 0 then
      batchUpdateGrades store validGrades updatedBy now
    else store
  ({ success := errors.length = 0
     message :=
       if errors.length = 0 then
         "Cập nhật thành công " ++ toString validGrades.length ++ " điểm"
       else "Có " ++ toString errors.length ++ " lỗi trong file Excel"
     errors := errors
     processedCount := validGrades.length
     totalCount := excelData.length }, store1)

/-- Result of `getAttendanceStats`. -/
structure AttendanceStats where
  totalClasses : Nat
  totalStudents : Nat
  attendanceRate : ℚ
  dateStats : List (String × Nat × Nat × ℚ)
deriving Repr, DecidableEq

/-- Result of `getGradeStats`. -/
structure GradeStats where
  average : ℚ
  highest : ℚ
  lowest : ℚ
  count : Nat
  distribution : List (String × Nat)
deriving Repr, DecidableEq

/-- `getAttendanceRecords` with the backing-store fetch made explicit: a
successful fetch is filtered (here the already-filtered document list) and
sorted; a failed fetch is caught and the function returns `[]` ("Return
empty array instead of throwing to prevent app crash"). -/
def getAttendanceRecordsRes (fetch : Except String (List AttendanceDoc)) :
    List AttendanceDoc :=
  match fetch with
  | .ok records => records.mergeSort attRecLE
  | .error _ => []

/-- `getAttendanceStats(startDate, endDate)` with the range query made
explicit.  On success: group the records by date in first-appearance order,
compute per-date present/total/rate, the overall rate, and the number of
distinct students; on a failed fetch the `catch` block throws
`'Không thể tính toán thống kê điểm danh.'`. -/
def getAttendanceStats (fetch : Except String (List AttendanceDoc)) :
    Except String AttendanceStats :=
  match fetch with
  | .error _ => .error "Không thể tính toán thống kê điểm danh."
  | .ok records =>
    let dates := (records.map (fun r => r.date)).eraseDups
    let dateStats := dates.map (fun d =>
      let dayRecords := records.filter (fun r => r.date == d)
      let presentCount := (dayRecords.filter (fun r => r.isPresent)).length
      let totalCount := dayRecords.length
      let rate : ℚ :=
        if totalCount > 0 then (presentCount : ℚ) / totalCount * 100 else 0
      (d, presentCount, totalCount, rate))
    let totalRecords := records.length
    let totalPresent := (records.filter (fun r => r.isPresent)).length
    let attendanceRate : ℚ :=
      if totalRecords > 0 then (totalPresent : ℚ) / totalRecords * 100 else 0
    .ok { totalClasses := dateStats.length
          totalStudents := (records.map (fun r => r.studentAccount)).eraseDups.length
          attendanceRate := attendanceRate
          dateStats := dateStats }

/-- The grade-range buckets of `getGradeStats`. -/
def gradeDistribution (values : List ℚ) : List (String × Nat) :=
  [("A (8.5-10)", (values.filter (fun v => v ≥ 85/10)).length),
   ("B (7.0-8.4)", (values.filter (fun v => v ≥ 7 && v < 85/10)).length),
   ("C (5.5-6.9)", (values.filter (fun v => v ≥ 55/10 && v < 7)).length),
   ("D (4.0-5.4)", (values.filter (fun v => v ≥ 4 && v < 55/10)).length),
   ("F (0-3.9)", (values.filter (fun v => v < 4)).length)]

/-- `getGradeStats(gradeType)` with the `getAllGrades` fetch made explicit.
On success: collect the numeric values of the requested category, return
zeros when none, else average (rounded to 2 decimals), max, min, count and
the distribution buckets; on a failed fetch the `catch` block throws
`'Không thể tính toán thống kê điểm.'`. -/
def getGradeStats (gradeType : GradeType)
    (fetch : Except String (List GradeRecord)) : Except String GradeStats :=
  match fetch with
  | .error _ => .error "Không thể tính toán thống kê điểm."
  | .ok grades =>
    let values := grades.filterMap (fun g => getCategory g gradeType)
    match values with
    | [] =>
      .ok { average := 0, highest := 0, lowest := 0, count := 0,
            distribution := [] }
    | v :: vs =>
      let total := values.sum
      .ok { average := roundTo2 (total / values.length)
            highest := vs.foldl max v
            lowest := vs.foldl min v
            count := values.length
            distribution := gradeDistribution values }

/-- Spec-side row validity: the row passes the validation of
`processExcelUpload` exactly when an account alias is present and the cell
is a number within `[0, 10]`. -/
def rowPassesValidation (row : ExcelRow) (gradeType : GradeType) : Bool :=
  match validateExcelRow row gradeType 2 with
  | .inl _ => false
  | .inr _ => true

/-- Well-formedness of the `grades` collection: unique document ids, and
every document's id is its `studentAccount` (every write of the service
uses `docId = studentAccount`). -/
def KeyedGrades (store : GradeStore) : Prop :=
  (store.map Prod.fst).Nodup ∧ ∀ e ∈ store, e.1 = e.2.studentAccount

/-! ### Concrete data used by witnesses -/

/-- Roster for the authorization witnesses: a leader and a member in group
"A", a member in group "B". -/
def wRoster : List Student :=
  [{ account := "111", name := "L", surname := "N", group := "A" },
   { account := "222", name := "M", surname := "N", group := "A" },
   { account := "333", name := "O", surname := "N", group := "B" }]

/-- A group leader of group "A" with attendance permission. -/
def wLeader : AuthUser :=
  { uid := "111", email := "111@gm.uit.edu.vn", displayName := "N L",
    role := .group_leader, studentAccount := some "111" }

/-- Permission record of `wLeader`. -/
def wLeaderPerm : StudentPermission :=
  { studentAccount := "111", canMarkAttendance := true,
    canEditGrades := false, isGroupLeader := true, role := .group_leader }

/-- Three valid Excel rows. -/
def wRows3 : List ExcelRow :=
  [{ account := some "1", value := .num 8 },
   { account := some "2", value := .num 9 },
   { account := some "3", value := .num 10 }]

/-- The three valid rows plus one invalid row (grade out of range). -/
def wRows4 : List ExcelRow := wRows3 ++ [{ account := some "4", value := .num 15 }]

/-- Attendance store with one existing record for `("123", "2025-01-01")`
carrying a nonzero participation count. -/
def wAttStore : AttStore :=
  [(attDocId "123" "2025-01-01",
    { studentAccount := "123", date := "2025-01-01", isPresent := false,
      participationCount := 5, createdAt := 7, updatedAt := 7,
      updatedBy := "x" })]

end SS007

namespace SS007

/-! ### Helper lemmas -/

/-- Closed form of the participation-score step function. -/
lemma getParticipationScore_eq (c : Int) :
    getParticipationScore c =
      if c ≤ 0 then 0 else if c = 1 then 3 else if c = 2 then 6
      else if c = 3 then 9 else 10 := by
  unfold getParticipationScore
  split_ifs <;> omega

/-- The accumulator of `calculateTotal` computes the componentwise sums over
the categories present in any suffix of the iteration order. -/
lemma foldl_weights_eq (r : GradeRecord) (l : List GradeType) (a b : ℚ) :
    l.foldl
      (fun (acc : ℚ × ℚ) t =>
        match getCategory r t with
        | some g => (acc.1 + g * weight t, acc.2 + weight t)
        | none => acc)
      (a, b) =
      (a + ((l.filterMap
              (fun t => (getCategory r t).map (fun v => (v, weight t)))).map
              (fun p => p.1 * p.2)).sum,
       b + ((l.filterMap
              (fun t => (getCategory r t).map (fun v => (v, weight t)))).map
              Prod.snd).sum) := by
  induction l generalizing a b with
  | nil => simp
  | cons t rest ih =>
    cases h : getCategory r t with
    | none => simp [h, ih]
    | some g =>
      simp only [List.foldl_cons, h, List.filterMap_cons, Option.map_some',
        List.map_cons, List.sum_cons, ih]
      simp [add_assoc]

/-- `calculateTotal` agrees with the spec-side weighted total. -/
lemma calculateTotal_eq_spec (r : GradeRecord) :
    calculateTotal r = specWeightedTotal r := by
  unfold calculateTotal specWeightedTotal presentPairs
  rw [foldl_weights_eq r gradeTypes 0 0]
  simp

/-- A keyed update touches only the entry carrying the key: when the key is
absent the document map is unchanged. -/
lemma map_key_update_of_no_key {α : Type} (l : List (String × α)) (k : String)
    (f : String × α → String × α) (hf : ∀ e, e.1 ≠ k → f e = e)
    (h : ∀ e ∈ l, e.1 ≠ k) : l.map f = l := by
  rw [List.map_congr_left (fun e he => hf e (h e he))]
  exact List.map_id l

/-- Filtering with a predicate equivalent to "carries key `k`" gives `[]`
when no entry carries `k`. -/
lemma filter_nil_of_no_key {α : Type} (l : List (String × α))
    (p : String × α → Bool) (k : String)
    (hiff : ∀ e ∈ l, (p e = true ↔ e.1 = k))
    (h : ∀ e ∈ l, e.1 ≠ k) : l.filter p = [] := by
  rw [List.filter_eq_nil_iff]
  intro e he hp
  exact h e he ((hiff e he).mp hp)

/-- With unique keys and a predicate equivalent to "carries key `k`",
filtering around a member `(k, x)` returns exactly that entry. -/
lemma filter_singleton_of_keyed {α : Type} (l : List (String × α))
    (p : String × α → Bool) (k : String)
    (hnodup : (l.map Prod.fst).Nodup)
    (hiff : ∀ e ∈ l, (p e = true ↔ e.1 = k))
    (x : α) (hmem : (k, x) ∈ l) : l.filter p = [(k, x)] := by
  induction l with
  | nil => cases hmem
  | cons e rest ih =>
    simp only [List.map_cons, List.nodup_cons] at hnodup
    by_cases hk : e.1 = k
    · have hnk : ∀ e' ∈ rest, e'.1 ≠ k := by
        intro e' he' hke
        have : e'.1 ∈ rest.map Prod.fst := List.mem_map_of_mem Prod.fst he'
        rw [hke, ← hk] at this
        exact hnodup.1 this
      have hxe : e = (k, x) := by
        rcases List.mem_cons.mp hmem with h | h
        · exact h.symm
        · exact absurd rfl (hnk (k, x) h)
      subst hxe
      have hrest : rest.filter p = [] :=
        filter_nil_of_no_key rest p k
          (fun e' he' => hiff e' (List.mem_cons_of_mem _ he')) hnk
      have hpe : p (k, x) = true := (hiff _ (List.mem_cons_self _ _)).mpr rfl
      simp [List.filter_cons, hpe, hrest]
    · have hpe : p e ≠ true := fun hp => hk ((hiff e (List.mem_cons_self _ _)).mp hp)
      have hmem' : (k, x) ∈ rest := by
        rcases List.mem_cons.mp hmem with h | h
        · exact absurd (congrArg Prod.fst h.symm) hk
        · exact h
      simp only [List.filter_cons, Bool.not_eq_true] at *
      rw [if_neg (by simp [hpe])]
      exact ih hnodup.2 (fun e' he' => hiff e' (List.mem_cons_of_mem _ he')) hmem'

/-- With unique keys, two members sharing a key carry the same datum. -/
lemma eq_of_key_mem_nodup {α : Type} (l : List (String × α)) (k : String)
    (hnodup : (l.map Prod.fst).Nodup) (x y : α)
    (hx : (k, x) ∈ l) (hy : (k, y) ∈ l) : x = y := by
  induction l with
  | nil => cases hx
  | cons e rest ih =>
    simp only [List.map_cons, List.nodup_cons] at hnodup
    rcases List.mem_cons.mp hx with h | h <;>
      rcases List.mem_cons.mp hy with h' | h'
    · rw [← h'] at h; exact congrArg Prod.snd h
    · exfalso
      have : (k, y).1 ∈ rest.map Prod.fst := List.mem_map_of_mem Prod.fst h'
      rw [← h] at hnodup
      exact hnodup.1 this
    · exfalso
      have : (k, x).1 ∈ rest.map Prod.fst := List.mem_map_of_mem Prod.fst h
      rw [← h'] at hnodup
      exact hnodup.1 this
    · exact ih hnodup.2 h h'

/-- Key-preserving maps keep the key list. -/
lemma map_keys_of_key_preserving {α : Type} (l : List (String × α))
    (f : String × α → String × α) (hf : ∀ e, (f e).1 = e.1) :
    (l.map f).map Prod.fst = l.map Prod.fst := by
  rw [List.map_map]
  exact List.map_congr_left (fun e _ => hf e)

/-- Updating the entry at key `k` and filtering for the key's predicate
returns exactly the updated entry. -/
lemma filter_map_update_singleton {α : Type} (l : List (String × α))
    (p : String × α → Bool) (k : String) (f : α → α)
    (hnodup : (l.map Prod.fst).Nodup)
    (hiff : ∀ e ∈ l, (p e = true ↔ e.1 = k))
    (x : α) (hmem : (k, x) ∈ l) (hpf : p (k, f x) = true) :
    (l.map (fun e => if e.1 == k then (e.1, f e.2) else e)).filter p =
      [(k, f x)] := by
  set upd : String × α → String × α :=
    fun e => if e.1 == k then (e.1, f e.2) else e with hupd
  have hkeys : (l.map upd).map Prod.fst = l.map Prod.fst :=
    map_keys_of_key_preserving l upd (by
      intro e
      rw [hupd]
      by_cases h : e.1 = k <;> simp [h])
  refine filter_singleton_of_keyed (l.map upd) p k (by rw [hkeys]; exact hnodup)
    ?_ (f x) ?_
  · intro e' he'
    rcases List.mem_map.mp he' with ⟨e, he, rfl⟩
    by_cases h : e.1 = k
    · have hex : e = (k, x) := by
        have := eq_of_key_mem_nodup l k hnodup e.2 x (by rw [← h]; exact he) hmem
        rw [← this, ← h]
      rw [hex, hupd]
      simp [hpf]
    · rw [hupd]
      simp only [beq_iff_eq, if_neg h]
      exact hiff e he
  · refine List.mem_map.mpr ⟨(k, x), hmem, ?_⟩
    rw [hupd]
    simp

/-- The composite-key filter matches exactly the documents carrying the
`(studentAccount, date)` fields. -/
lemma attFilterPred_iff (d a : String) (e : String × AttendanceDoc) :
    attFilterPred d a e = true ↔ (e.2.studentAccount = a ∧ e.2.date = d) := by
  simp [attFilterPred, and_comm]

/-- The existence check of `markAttendance` sees as many records as the
store holds for the composite key. -/
lemma getAttendanceRecordsBy_length (store : AttStore) (d a : String) :
    (getAttendanceRecordsBy store d a).length = countFor store d a := by
  simp [getAttendanceRecordsBy, countFor, List.length_mergeSort]

/-- Under `KeyedFor`, the composite-key filter is equivalent to carrying the
derived document id. -/
lemma keyedFor_iff (store : AttStore) (a d : String)
    (h : KeyedFor store a d) :
    ∀ e ∈ store, (attFilterPred d a e = true ↔ e.1 = attDocId a d) :=
  fun e he => (attFilterPred_iff d a e).trans (h.2 e he)

/-- One `markAttendance` leaves exactly one record for the composite key and
preserves well-formedness. -/
lemma markAttendance_keyed (store : AttStore) (a d : String) (p : Bool)
    (mb : String) (now : Nat) (h : KeyedFor store a d) :
    countFor (markAttendance store a d p mb now) d a = 1 ∧
      KeyedFor (markAttendance store a d p mb now) a d := by
  have hiff := keyedFor_iff store a d h
  by_cases hx : countFor store d a = 0
  · -- no record yet: the `setDoc` branch appends one fresh document
    have hx' : (store.filter (attFilterPred d a)).length = 0 := hx
    have hnk : ∀ e ∈ store, e.1 ≠ attDocId a d := by
      intro e he hk
      have hpe : attFilterPred d a e = true := (hiff e he).mpr hk
      have hmem : e ∈ store.filter (attFilterPred d a) :=
        List.mem_filter.mpr ⟨he, hpe⟩
      rw [List.length_eq_zero.mp hx'] at hmem
      cases hmem
    have hbranch : markAttendance store a d p mb now =
        store ++ [(attDocId a d,
          { studentAccount := a, date := d, isPresent := p,
            participationCount := 0, createdAt := now, updatedAt := now,
            updatedBy := mb })] := by
      simp only [markAttendance]
      rw [getAttendanceRecordsBy_length, hx]
      simp
    rw [hbranch]
    refine ⟨?_, ?_, ?_⟩
    · unfold countFor
      rw [List.filter_append, List.length_append, hx']
      simp [attFilterPred]
    · rw [List.map_append, List.nodup_append]
      refine ⟨h.1, List.nodup_singleton _, ?_⟩
      intro k hk hmem
      rcases List.mem_map.mp hk with ⟨e, he, rfl⟩
      rcases List.mem_map.mp hmem with ⟨e', he', hke⟩
      rw [List.mem_singleton.mp he'] at hke
      exact hnk e he hke.symm
    · intro e he
      rcases List.mem_append.mp he with h' | h'
      · exact h.2 e h'
      · rw [List.mem_singleton.mp h']
        exact ⟨fun _ => rfl, fun _ => ⟨rfl, rfl⟩⟩
  · -- a record exists: the `updateDoc` branch rewrites it in place
    have hne : store.filter (attFilterPred d a) ≠ [] := by
      intro hnil
      exact hx (by simp [countFor, hnil])
    obtain ⟨e₀, he₀⟩ := List.exists_mem_of_ne_nil _ hne
    have he₀s : e₀ ∈ store := (List.mem_filter.mp he₀).1
    have hk₀ : e₀.1 = attDocId a d :=
      (hiff e₀ he₀s).mp (List.mem_filter.mp he₀).2
    have hmem : (attDocId a d, e₀.2) ∈ store := by
      rw [← hk₀]
      exact he₀s
    have hpos : (getAttendanceRecordsBy store d a).length > 0 := by
      rw [getAttendanceRecordsBy_length]
      exact Nat.pos_of_ne_zero hx
    have hbranch : markAttendance store a d p mb now =
        store.map (fun e =>
          if e.1 == attDocId a d then
            (e.1, { e.2 with
                      studentAccount := a, date := d, isPresent := p,
                      updatedAt := now, updatedBy := mb })
          else e) := by
      simp only [markAttendance]
      rw [getAttendanceRecordsBy_length]
      rw [if_pos (Nat.pos_of_ne_zero hx)]
    have hfilter :
        ((store.map (fun e =>
          if e.1 == attDocId a d then
            (e.1, { e.2 with
                      studentAccount := a, date := d, isPresent := p,
                      updatedAt := now, updatedBy := mb })
          else e)).filter (attFilterPred d a)) =
        [(attDocId a d,
          { e₀.2 with
              studentAccount := a, date := d, isPresent := p,
              updatedAt := now, updatedBy := mb })] :=
      filter_map_update_singleton store (attFilterPred d a) (attDocId a d)
        (fun doc =>
          { doc with
              studentAccount := a, date := d, isPresent := p,
              updatedAt := now, updatedBy := mb })
        h.1 hiff e₀.2 hmem (by simp [attFilterPred])
    rw [hbranch]
    refine ⟨?_, ?_, ?_⟩
    · unfold countFor
      rw [hfilter]
      rfl
    · rw [map_keys_of_key_preserving store _
        (by intro e; by_cases hc : e.1 = attDocId a d <;> simp [hc])]
      exact h.1
    · intro e' he'
      rcases List.mem_map.mp he' with ⟨e, he, rfl⟩
      by_cases hc : e.1 = attDocId a d
      · simp [hc]
      · simpa [hc] using h.2 e he

/-- A row yields a valid grade independently of the reported row number. -/
lemma validateExcelRow_inr_iff (row : ExcelRow) (t : GradeType) (n : Nat) :
    (∃ v, validateExcelRow row t n = .inr v) ↔
      rowPassesValidation row t = true := by
  rcases row with ⟨acc, val⟩
  cases acc <;> cases val <;>
    simp [validateExcelRow, rowPassesValidation] <;> split_ifs <;> simp_all

/-- The validation loop returns as many errors as there are invalid rows and
as many valid grades as there are valid rows. -/
lemma validateExcelRows_counts (rows : List ExcelRow) (t : GradeType)
    (n : Nat) :
    (validateExcelRows rows t n).1.length =
      rows.countP (fun r => !rowPassesValidation r t) ∧
    (validateExcelRows rows t n).2.length =
      rows.countP (fun r => rowPassesValidation r t) := by
  induction rows generalizing n with
  | nil => simp [validateExcelRows]
  | cons row rest ih =>
    have htail := ih (n + 1)
    cases hv : validateExcelRow row t n with
    | inl err =>
      have hfail : rowPassesValidation row t = false := by
        by_contra hc
        have := (validateExcelRow_inr_iff row t n).mpr
          (eq_true_of_ne_false (fun hne => hc hne))
        rcases this with ⟨v, hvv⟩
        rw [hv] at hvv
        cases hvv
      simp [validateExcelRows, hv, List.countP_cons, hfail, htail.1, htail.2]
    | inr ok =>
      have hpass : rowPassesValidation row t = true :=
        (validateExcelRow_inr_iff row t n).mp ⟨ok, hv⟩
      simp [validateExcelRows, hv, List.countP_cons, hpass, htail.1, htail.2]

/-! ### Claim theorems -/

/-- C6: `getParticipationScore` maps 0/1/2/3 to 0/3/6/9, every count ≥ 4 to
10, every negative count to 0, and is monotonically non-decreasing. -/
theorem participationScore_spec :
    getParticipationScore 0 = 0 ∧ getParticipationScore 1 = 3 ∧
    getParticipationScore 2 = 6 ∧ getParticipationScore 3 = 9 ∧
    (∀ c : Int, 4 ≤ c → getParticipationScore c = 10) ∧
    (∀ c : Int, c < 0 → getParticipationScore c = 0) ∧
    (∀ a b : Int, a ≤ b →
      getParticipationScore a ≤ getParticipationScore b) := by
  refine ⟨by decide, by decide, by decide, by decide, ?_, ?_, ?_⟩
  · intro c hc
    rw [getParticipationScore_eq]
    split_ifs <;> omega
  · intro c hc
    rw [getParticipationScore_eq]
    split_ifs <;> omega
  · intro a b hab
    rw [getParticipationScore_eq, getParticipationScore_eq]
    split_ifs <;> omega

/-- Witness for C6: the participation score at counts 7, −2, and the
monotonicity instance 2 ≤ 5. -/
theorem participationScore_spec_witness :
    getParticipationScore 7 = 10 ∧ getParticipationScore (-2) = 0 ∧
    getParticipationScore 2 ≤ getParticipationScore 5 :=
  ⟨participationScore_spec.2.2.2.2.1 7 (by norm_num),
   participationScore_spec.2.2.2.2.2.1 (-2) (by norm_num),
   participationScore_spec.2.2.2.2.2.2 2 5 (by norm_num)⟩

/-- C5: `calculateTotal` equals the normalized weighted sum over the
categories present (rounded to 2 decimals), is 0 when no category is
present, and gives 7.43 on midterm=8, final=7 with all others absent. -/
theorem calculateTotal_spec :
    (∀ r : GradeRecord, calculateTotal r = specWeightedTotal r) ∧
    (∀ r : GradeRecord, (∀ t, getCategory r t = none) →
      calculateTotal r = 0) ∧
    calculateTotal
      { studentAccount := "x", midterm := some 8, final := some 7 } =
      743 / 100 := by
  refine ⟨calculateTotal_eq_spec, ?_, by
    norm_num [calculateTotal, gradeTypes, getCategory, weight, roundTo2,
      round_eq]⟩
  intro r hnone
  rw [calculateTotal_eq_spec]
  unfold specWeightedTotal
  have hpairs : presentPairs r = [] := by
    simp [presentPairs, hnone]
  rw [hpairs]
  simp

/-- Witness for C5: the all-absent record evaluates to total 0, via the
second conjunct. -/
theorem calculateTotal_spec_witness :
    calculateTotal { studentAccount := "w" } = 0 :=
  calculateTotal_spec.2.1 { studentAccount := "w" }
    (fun t => by cases t <;> rfl)

/-- C2 counterexample: account login on an account absent from the roster
does not fail — it returns a provisional subject with role `student`;
`signInWithAccount` takes no `strictRosterLookup` configuration, so no mode
rejects unknown accounts. -/
theorem signInUnknown_counterexample :
    signInWithAccount [] "99999999" =
      { uid := "99999999", email := "99999999@gm.uit.edu.vn",
        displayName := "Sinh viên 99999999", role := .student,
        studentAccount := some "99999999" } ∧
    (signInWithAccount [] "99999999").role = Role.student := by
  exact ⟨rfl, rfl⟩

/-- C2 amended: for every roster and account not found in it,
`signInWithAccount` returns the demo-fallback subject with role `student`
(there is no strict mode and no failure path for unknown accounts). -/
theorem signInUnknown_amended :
    ∀ (roster : List (String × StudentDoc)) (account : String),
      lookupStudentDoc roster account = none →
      signInWithAccount roster account =
        { uid := account, email := account ++ "@gm.uit.edu.vn",
          displayName := "Sinh viên " ++ account, role := .student,
          studentAccount := some account } := by
  intro roster account h
  unfold signInWithAccount
  rw [h]

/-- Witness for C2 amended: the empty roster and account `12345`. -/
theorem signInUnknown_amended_witness :
    signInWithAccount [] "12345" =
      { uid := "12345", email := "12345@gm.uit.edu.vn",
        displayName := "Sinh viên 12345", role := .student,
        studentAccount := some "12345" } :=
  signInUnknown_amended [] "12345" rfl

/-- C9 counterexample: on a failed store access the attendance-statistics
and grade-statistics queries do not return zero-valued results — they
propagate an error to the caller. -/
theorem readSideStats_counterexample :
    getAttendanceStats (Except.error "storage failure") =
      Except.error "Không thể tính toán thống kê điểm danh." ∧
    getGradeStats .midterm (Except.error "storage failure") =
      Except.error "Không thể tính toán thống kê điểm." :=
  ⟨rfl, rfl⟩

/-- C9 amended: on a failed store access the attendance record listing
fails soft (returns `[]`), while the attendance-statistics and
grade-statistics queries propagate the failure as an error. -/
theorem readSideFailure_amended :
    ∀ (e : String) (t : GradeType),
      getAttendanceRecordsRes (Except.error e) = [] ∧
      getAttendanceStats (Except.error e) =
        Except.error "Không thể tính toán thống kê điểm danh." ∧
      getGradeStats t (Except.error e) =
        Except.error "Không thể tính toán thống kê điểm." :=
  fun _ _ => ⟨rfl, rfl, rfl⟩

/-- C3: if any row of a bulk grade-import batch fails validation, the store
is left unchanged (zero rows written), and the reported `processedCount` is
the number of rows that passed validation. -/
theorem processExcelUpload_allOrNothing :
    ∀ (store : GradeStore) (rows : List ExcelRow) (t : GradeType)
      (ub : String) (now : Nat),
      (∃ r ∈ rows, rowPassesValidation r t = false) →
      (processExcelUpload store rows t ub now).2 = store ∧
      (processExcelUpload store rows t ub now).1.processedCount =
        rows.countP (fun r => rowPassesValidation r t) := by
  intro store rows t ub now hbad
  obtain ⟨r, hr, hfail⟩ := hbad
  have hcounts := validateExcelRows_counts rows t 2
  have herr : ¬ (validateExcelRows rows t 2).1.length = 0 := by
    rw [hcounts.1]
    have hpos : 0 < rows.countP (fun r => !rowPassesValidation r t) :=
      List.countP_pos_iff.mpr ⟨r, hr, by simp [hfail]⟩
    omega
  constructor
  · simp only [processExcelUpload]
    rw [if_neg herr]
  · simp only [processExcelUpload]
    rw [List.length_map]
    exact hcounts.2

/-- Witness for C3: the batch of 3 valid rows and 1 out-of-range row
leaves the empty store empty and reports 3 rows as processed. -/
theorem processExcelUpload_allOrNothing_witness :
    (processExcelUpload [] wRows4 .midterm "teacher" 0).2 = [] ∧
    (processExcelUpload [] wRows4 .midterm "teacher" 0).1.processedCount = 3 := by
  have h := processExcelUpload_allOrNothing [] wRows4 .midterm "teacher" 0
    ⟨{ account := some "4", value := .num 15 }, by decide, by decide⟩
  refine ⟨h.1, ?_⟩
  rw [h.2]
  decide

/-- C4 counterexample: for 3 valid rows plus 1 invalid row the import
returns `success = false` and `errors.length = 1` as claimed, but
`processedCount = 3` (the rows that passed validation), not 0. -/
theorem excelBatchExample_counterexample :
    (processExcelUpload [] wRows4 .midterm "teacher" 0).1.success = false ∧
    (processExcelUpload [] wRows4 .midterm "teacher" 0).1.errors.length = 1 ∧
    (processExcelUpload [] wRows4 .midterm "teacher" 0).1.processedCount = 3 ∧
    (processExcelUpload [] wRows4 .midterm "teacher" 0).1.processedCount ≠ 0 := by
  decide

/-- C4 amended: 3 valid rows + 1 invalid row → `success = false`,
`processedCount = 3`, `errors.length = 1`, nothing written; the same 3 valid
rows alone → `success = true`, `processedCount = 3`. -/
theorem excelBatchExample_amended :
    ((processExcelUpload [] wRows4 .midterm "teacher" 0).1.success = false ∧
     (processExcelUpload [] wRows4 .midterm "teacher" 0).1.processedCount = 3 ∧
     (processExcelUpload [] wRows4 .midterm "teacher" 0).1.errors.length = 1 ∧
     (processExcelUpload [] wRows4 .midterm "teacher" 0).2 = []) ∧
    ((processExcelUpload [] wRows3 .midterm "teacher" 0).1.success = true ∧
     (processExcelUpload [] wRows3 .midterm "teacher" 0).1.processedCount = 3) := by
  decide

/-- C7: calling `markAttendance` twice with identical arguments leaves the
well-formed store with exactly one attendance record for the composite key
`(account, date)`. -/
theorem markAttendance_idempotent :
    ∀ (store : AttStore) (a d : String) (p : Bool) (mb : String)
      (t1 t2 : Nat),
      KeyedFor store a d →
      countFor
        (markAttendance (markAttendance store a d p mb t1) a d p mb t2)
        d a = 1 := by
  intro store a d p mb t1 t2 h
  have h1 := markAttendance_keyed store a d p mb t1 h
  exact (markAttendance_keyed _ a d p mb t2 h1.2).1

/-- Witness for C7: double upsert into the empty store yields one record. -/
theorem markAttendance_idempotent_witness :
    countFor
      (markAttendance (markAttendance [] "123" "2025-01-01" true "t" 0)
        "123" "2025-01-01" true "t" 1)
      "2025-01-01" "123" = 1 :=
  markAttendance_idempotent [] "123" "2025-01-01" true "t" 0 1
    ⟨by simp, by simp⟩

/-- C10: `markAttendance` keeps the existing record's `participationCount`
and `createdAt` when a record for the composite key exists, and initializes
`participationCount = 0` with `createdAt = now` only when it creates one. -/
theorem markAttendance_frame :
    ∀ (store : AttStore) (a d : String) (p : Bool) (mb : String)
      (now : Nat),
      KeyedFor store a d →
      (∀ doc : AttendanceDoc, (attDocId a d, doc) ∈ store →
        ∃ doc', (attDocId a d, doc') ∈ markAttendance store a d p mb now ∧
          doc'.participationCount = doc.participationCount ∧
          doc'.createdAt = doc.createdAt ∧
          doc'.isPresent = p ∧ doc'.updatedAt = now) ∧
      (countFor store d a = 0 →
        ∃ doc' : AttendanceDoc,
          markAttendance store a d p mb now =
            store ++ [(attDocId a d, doc')] ∧
          doc'.participationCount = 0 ∧ doc'.createdAt = now) := by
  intro store a d p mb now h
  have hiff := keyedFor_iff store a d h
  constructor
  · intro doc hdoc
    have hpe : attFilterPred d a (attDocId a d, doc) = true :=
      (hiff _ hdoc).mpr rfl
    have hx : ¬ countFor store d a = 0 := by
      intro hc
      have hmem : (attDocId a d, doc) ∈ store.filter (attFilterPred d a) :=
        List.mem_filter.mpr ⟨hdoc, hpe⟩
      have hnil : (store.filter (attFilterPred d a)) = [] :=
        List.length_eq_zero.mp hc
      rw [hnil] at hmem
      cases hmem
    have hbranch : markAttendance store a d p mb now =
        store.map (fun e =>
          if e.1 == attDocId a d then
            (e.1, { e.2 with
                      studentAccount := a, date := d, isPresent := p,
                      updatedAt := now, updatedBy := mb })
          else e) := by
      simp only [markAttendance]
      rw [getAttendanceRecordsBy_length]
      rw [if_pos (Nat.pos_of_ne_zero hx)]
    refine ⟨{ doc with
                studentAccount := a, date := d, isPresent := p,
                updatedAt := now, updatedBy := mb },
            ?_, rfl, rfl, rfl, rfl⟩
    rw [hbranch]
    refine List.mem_map.mpr ⟨(attDocId a d, doc), hdoc, ?_⟩
    simp
  · intro hc
    have hbranch : markAttendance store a d p mb now =
        store ++ [(attDocId a d,
          { studentAccount := a, date := d, isPresent := p,
            participationCount := 0, createdAt := now, updatedAt := now,
            updatedBy := mb })] := by
      simp only [markAttendance]
      rw [getAttendanceRecordsBy_length, hc]
      simp
    exact ⟨_, hbranch, rfl, rfl⟩

/-- Witness for C10: an existing record with `participationCount = 5`,
`createdAt = 7` keeps both through an upsert; a fresh upsert into the empty
store creates a record with `participationCount = 0`, `createdAt = now`. -/
theorem markAttendance_frame_witness :
    (∃ doc', (attDocId "123" "2025-01-01", doc') ∈
        markAttendance wAttStore "123" "2025-01-01" true "t" 9 ∧
      doc'.participationCount = 5 ∧ doc'.createdAt = 7) ∧
    (∃ doc', markAttendance [] "456" "2025-01-02" true "t" 3 =
        [] ++ [(attDocId "456" "2025-01-02", doc')] ∧
      doc'.participationCount = 0 ∧ doc'.createdAt = 3) := by
  constructor
  · obtain ⟨doc', hmem, hp, hc, _, _⟩ :=
      (markAttendance_frame wAttStore "123" "2025-01-01" true "t" 9
        (by constructor
            · decide
            · decide)).1
        { studentAccount := "123", date := "2025-01-01", isPresent := false,
          participationCount := 5, createdAt := 7, updatedAt := 7,
          updatedBy := "x" }
        (by decide)
    exact ⟨doc', hmem, hp, hc⟩
  · exact (markAttendance_frame [] "456" "2025-01-02" true "t" 3
      ⟨by simp, by simp⟩).2 rfl

/-- `setCategory` never touches `studentAccount`. -/
lemma setCategory_studentAccount (r : GradeRecord) (t : GradeType) (v : ℚ) :
    (setCategory r t v).studentAccount = r.studentAccount := by
  cases t <;> rfl

/-- Writing `total` and `updatedAt` leaves every category untouched. -/
lemma getCategory_set_total (r : GradeRecord) (x : Option ℚ) (y : Nat)
    (t : GradeType) :
    getCategory { r with total := x, updatedAt := y } t = getCategory r t := by
  cases t <;> rfl

/-- `calculateTotal` depends only on the category fields. -/
lemma calculateTotal_congr (r r' : GradeRecord)
    (h : ∀ t, getCategory r t = getCategory r' t) :
    calculateTotal r = calculateTotal r' := by
  unfold calculateTotal
  simp only [gradeTypes, List.foldl_cons, List.foldl_nil, h]

/-- Under `KeyedGrades`, the account-field filter of `getGradesByStudent`
matches exactly the entry keyed by the account. -/
lemma keyedGrades_iff (store : GradeStore) (acc : String)
    (h : KeyedGrades store) :
    ∀ e ∈ store, ((e.2.studentAccount == acc) = true ↔ e.1 = acc) := by
  intro e he
  rw [beq_iff_eq, ← h.2 e he]

/-- C8: after a single-category `updateGrade`, the stored record for the
account has `total` equal to `calculateTotal` of the stored record itself —
the recompute runs inside the call, and no caller-supplied total is stored
(no `GradeType` addresses `total`). -/
theorem updateGrade_total_invariant :
    ∀ (store : GradeStore) (acc : String) (t : GradeType) (v : ℚ)
      (ub : String) (now : Nat),
      KeyedGrades store →
      ∃ r, (acc, r) ∈ updateGrade store acc t v ub now ∧
        r.total = some (calculateTotal r) := by
  intro store acc t v ub now h
  have hiff := keyedGrades_iff store acc h
  cases hsome : getGradesByStudent store acc with
  | none =>
    -- create path: `setDoc` appends, then `recalculateTotal` fills `total`
    have hfilter : store.filter (fun e => e.2.studentAccount == acc) = [] := by
      have := hsome
      unfold getGradesByStudent at this
      rcases hn : store.filter (fun e => e.2.studentAccount == acc) with _ | ⟨e₀, rest⟩
      · exact hn
      · rw [hn] at this
        simp at this
    have hnk : ∀ e ∈ store, e.1 ≠ acc := by
      intro e he hk
      have hpe : (e.2.studentAccount == acc) = true := (hiff e he).mpr hk
      have : e ∈ store.filter (fun e => e.2.studentAccount == acc) :=
        List.mem_filter.mpr ⟨he, hpe⟩
      rw [hfilter] at this
      cases this
    set d0 : GradeRecord :=
      setCategory
        { studentAccount := acc, updatedAt := now, updatedBy := ub } t v
      with hd0
    have hd0acc : d0.studentAccount = acc := by
      rw [hd0, setCategory_studentAccount]
    have hany : store.any (fun e => e.1 == acc) = false := by
      rw [List.any_eq_false]
      intro e he
      simp [hnk e he]
    have hstore1 : updateGrade store acc t v ub now =
        recalculateTotal (store ++ [(acc, d0)]) acc now := by
      simp only [updateGrade, hsome, setDocGrade, hany]
      simp
    have hfetch : getGradesByStudent (store ++ [(acc, d0)]) acc = some d0 := by
      unfold getGradesByStudent
      rw [List.filter_append, hfilter]
      simp [hd0acc]
    rw [hstore1]
    simp only [recalculateTotal, hfetch]
    rw [List.map_append,
      map_key_update_of_no_key store acc _
        (fun e he => by simp [he]) hnk]
    refine ⟨{ d0 with total := some (calculateTotal d0), updatedAt := now },
      ?_, ?_⟩
    · apply List.mem_append_right
      simp
    · have : calculateTotal
          { d0 with total := some (calculateTotal d0), updatedAt := now } =
          calculateTotal d0 :=
        calculateTotal_congr _ _ (fun t' => getCategory_set_total d0 _ _ t')
      rw [this]
  | some r =>
    -- update path: merge-write in place, then `recalculateTotal`
    have hne : store.filter (fun e => e.2.studentAccount == acc) ≠ [] := by
      intro hnil
      unfold getGradesByStudent at hsome
      rw [hnil] at hsome
      cases hsome
    obtain ⟨e₀, he₀⟩ := List.exists_mem_of_ne_nil _ hne
    have he₀s : e₀ ∈ store := (List.mem_filter.mp he₀).1
    have hk₀ : e₀.1 = acc := (hiff e₀ he₀s).mp (List.mem_filter.mp he₀).2
    have hmem : (acc, e₀.2) ∈ store := by
      rw [← hk₀]
      exact he₀s
    set f₁ : GradeRecord → GradeRecord := fun doc =>
      setCategory
        { doc with studentAccount := acc, updatedAt := now, updatedBy := ub }
        t v
      with hf₁
    have hf₁acc : ∀ doc, (f₁ doc).studentAccount = acc := by
      intro doc
      rw [hf₁]
      simp [setCategory_studentAccount]
    have hstore1 : updateGrade store acc t v ub now =
        recalculateTotal
          (store.map (fun e => if e.1 == acc then (e.1, f₁ e.2) else e))
          acc now := by
      simp only [updateGrade, hsome, hf₁]
    have hfilter1 :
        ((store.map (fun e => if e.1 == acc then (e.1, f₁ e.2) else e)).filter
          (fun e => e.2.studentAccount == acc)) = [(acc, f₁ e₀.2)] :=
      filter_map_update_singleton store _ acc f₁ h.1 hiff e₀.2 hmem
        (by simp [hf₁acc])
    have hfetch : getGradesByStudent
        (store.map (fun e => if e.1 == acc then (e.1, f₁ e.2) else e)) acc =
        some (f₁ e₀.2) := by
      unfold getGradesByStudent
      rw [hfilter1]
      rfl
    have hmem1 : (acc, f₁ e₀.2) ∈
        store.map (fun e => if e.1 == acc then (e.1, f₁ e.2) else e) := by
      have : (acc, f₁ e₀.2) ∈ [(acc, f₁ e₀.2)] := List.mem_singleton.mpr rfl
      rw [← hfilter1] at this
      exact (List.mem_filter.mp this).1
    rw [hstore1]
    simp only [recalculateTotal, hfetch]
    refine ⟨{ f₁ e₀.2 with
                total := some (calculateTotal (f₁ e₀.2)), updatedAt := now },
      ?_, ?_⟩
    · refine List.mem_map.mpr ⟨(acc, f₁ e₀.2), hmem1, ?_⟩
      simp
    · have : calculateTotal
          { f₁ e₀.2 with
              total := some (calculateTotal (f₁ e₀.2)), updatedAt := now } =
          calculateTotal (f₁ e₀.2) :=
        calculateTotal_congr _ _
          (fun t' => getCategory_set_total (f₁ e₀.2) _ _ t')
      rw [this]

/-- Witness for C8: upserting midterm 8 for account `123` into the empty
store stores a record whose `total` is `calculateTotal` of itself. -/
theorem updateGrade_total_invariant_witness :
    ∃ r, ("123", r) ∈ updateGrade [] "123" GradeType.midterm 8 "t" 5 ∧
      r.total = some (calculateTotal r) :=
  updateGrade_total_invariant [] "123" GradeType.midterm 8 "t" 5
    ⟨by simp, by simp⟩

/-- C1: for an authenticated group leader with `canMarkAttendance = true`
whose own and target accounts both resolve in the roster, the
mark-attendance guard, the update-participation guard, and
`canInteractWithStudent` allow the action exactly when the target's group
equals the leader's own group. -/
theorem groupLeaderScope_spec :
    ∀ (students : List Student) (u : AuthUser) (perm : StudentPermission)
      (acc target : String) (cur tgt : Student),
      perm.role = .group_leader → perm.canMarkAttendance = true →
      u.studentAccount = some acc →
      students.find? (fun s => s.account == acc) = some cur →
      students.find? (fun s => s.account == target) = some tgt →
      ((handleAttendanceChangeGuard students (some u) (some perm) target =
          .allow ↔ cur.group = tgt.group) ∧
       (handleParticipationChangeGuard students (some u) (some perm) target =
          .allow ↔ cur.group = tgt.group) ∧
       (canInteractWithStudent students (some u) (some perm) target = true ↔
          cur.group = tgt.group)) := by
  intro students u perm acc target cur tgt hrole hcan hacc hfind1 hfind2
  have hguard : handleAttendanceChangeGuard students (some u) (some perm)
      target = .allow ↔ cur.group = tgt.group := by
    by_cases hgr : cur.group = tgt.group <;>
      simp [handleAttendanceChangeGuard, hrole, hcan, hacc, hfind1, hfind2,
        hgr]
  refine ⟨hguard, hguard, ?_⟩
  simp [canInteractWithStudent, hrole, hcan, hacc, hfind1, hfind2]

/-- Witness for C1: in the concrete roster, the group-A leader may act on
the group-A member and is refused on the group-B member, under both the
attendance guard and `canInteractWithStudent`. -/
theorem groupLeaderScope_spec_witness :
    handleAttendanceChangeGuard wRoster (some wLeader) (some wLeaderPerm)
      "222" = .allow ∧
    handleAttendanceChangeGuard wRoster (some wLeader) (some wLeaderPerm)
      "333" ≠ .allow ∧
    canInteractWithStudent wRoster (some wLeader) (some wLeaderPerm)
      "222" = true ∧
    canInteractWithStudent wRoster (some wLeader) (some wLeaderPerm)
      "333" ≠ true := by
  have hA := groupLeaderScope_spec wRoster wLeader wLeaderPerm "111" "222"
    { account := "111", name := "L", surname := "N", group := "A" }
    { account := "222", name := "M", surname := "N", group := "A" }
    rfl rfl rfl (by decide) (by decide)
  have hB := groupLeaderScope_spec wRoster wLeader wLeaderPerm "111" "333"
    { account := "111", name := "L", surname := "N", group := "A" }
    { account := "333", name := "O", surname := "N", group := "B" }
    rfl rfl rfl (by decide) (by decide)
  refine ⟨hA.1.mpr rfl, fun hall => ?_, hA.2.2.mpr rfl, fun hall => ?_⟩
  · exact absurd (hB.1.mp hall) (by decide)
  · exact absurd (hB.2.2.mp hall) (by decide)

end SS007
